import Mathlib

/-!
Shallow embedding of the stream-orchestration and bookmark-state engine of
the `singer_sdk` repository (files `singer_sdk/tap_base.py` and
`singer_sdk/samples/sample_tap_gitlab/gitlab_rest_streams.py`), together
with proofs settling the specification claims about it.

Python dictionaries are modelled as insertion-ordered association lists
(`alistSet` updates an existing key in place and appends a new key at the
end, exactly as CPython dict assignment does). Python's JSON-ish values are
modelled by the inductive `JVal`; Python truthiness by `jtruthy`.
Exceptions are modelled with `Except String`.
-/

namespace SingerSDK

/-- A JSON-like Python value: the value space of records, configuration and
bookmark entries. -/
inductive JVal where
  | jnull : JVal
  | jbool : Bool → JVal
  | jint : Int → JVal
  | jstr : String → JVal
  | jlist : List JVal → JVal
  | jmap : List (String × JVal) → JVal
  deriving Repr

/-- A Python dict with string keys, as an insertion-ordered association list. -/
abbrev JDict := List (String × JVal)

/-- Dictionary lookup `m.get(k)` / `m[k]`: the value at the first (unique)
occurrence of key `k`, if any. -/
def alistGet {κ α : Type} [DecidableEq κ] (m : List (κ × α)) (k : κ) : Option α :=
  match m with
  | [] => none
  | (k', v) :: rest => if k' = k then some v else alistGet rest k

/-- Dictionary assignment `m[k] = v` with CPython semantics: an existing key
keeps its position and gets the new value; a fresh key is appended. -/
def alistSet {κ α : Type} [DecidableEq κ] (m : List (κ × α)) (k : κ) (v : α) :
    List (κ × α) :=
  match m with
  | [] => [(k, v)]
  | (k', v') :: rest =>
      if k' = k then (k, v) :: rest else (k', v') :: alistSet rest k v

/-- `m.update(upd)`: assign every key/value pair of `upd` into `m`, in order. -/
def dictUpdate {κ α : Type} [DecidableEq κ] (m upd : List (κ × α)) :
    List (κ × α) :=
  upd.foldl (fun acc kv => alistSet acc kv.1 kv.2) m

/-- Python truthiness of a `JVal` (`bool(v)`). -/
def jtruthy : JVal → Bool
  | .jnull => false
  | .jbool b => b
  | .jint n => !(n == 0)
  | .jstr s => !s.isEmpty
  | .jlist xs => !xs.isEmpty
  | .jmap m => !m.isEmpty

/-- The data of a `Stream` object as read by `Tap` (`tap_base.py`) and the
theorems below: its name, bookmark key (`tap_stream_id`), replication
settings and declared parent stream types.  `parent_stream_types` holds the
names of the parent stream classes; `stream_version` is the value the
source obtains from `stream.get_stream_version()` (defined outside the
orchestration core, so kept abstract as a data field). -/
structure Stream where
  name : String
  tap_stream_id : String
  primary_keys : Option (List String)
  replication_key : Option String
  replication_method : String
  parent_stream_types : List String
  stream_version : JVal
  deriving Repr

/-- The tap's mutable state `self._state`, restricted to its bookmark
content: a mapping from `tap_stream_id` to that stream's bookmark dict.
Python's `not self._state` (dict truthiness) corresponds to this list being
empty: the state starts as `{}` and every mutation performed by this module
goes through `write_bookmark`, which makes it non-empty. -/
abbrev SingerState := List (String × JDict)

/-- `singer.write_bookmark(state, tap_stream_id, key, val)`: ensure the
bookmark dict for `tap_stream_id` exists and assign `key = val` in it. -/
def write_bookmark (state : SingerState) (tap_stream_id k : String) (v : JVal) :
    SingerState :=
  alistSet state tap_stream_id (alistSet ((alistGet state tap_stream_id).getD []) k v)

/-- Bookmark lookup: the value stored under `key` in the bookmark dict of
`tap_stream_id`, if any. -/
def get_bookmark (state : SingerState) (tap_stream_id k : String) : Option JVal :=
  (alistGet state tap_stream_id).bind (fun bk => alistGet bk k)

/-- `Tap.merge_bookmarks` (tap_base.py:121-124): apply each new bookmark
key/value via `singer.write_bookmark`, in order. -/
def merge_bookmarks (state : SingerState) (stream : Stream)
    (new_bookmarks : List (String × JVal)) : SingerState :=
  new_bookmarks.foldl
    (fun st kv => write_bookmark st stream.tap_stream_id kv.1 kv.2) state

/-- `Tap.update_bookmarks` (tap_base.py:126-156), translated line by line.
`latest_record = []` models an empty (or absent, hence falsy) record.
The source's full-table branch gates its write on
`max_pk_values = singer._get_bookmark("max_pk_values")`; that call is
modelled, as charitably as an executable reading allows, as the bookmark
lookup of key `"max_pk_values"` for the current stream (truthiness-tested,
as in the source).  No code path in this repository ever writes a
`"max_pk_values"` bookmark.  `latest_record[stream.replication_key]` raises
`KeyError` when the field is absent, modelled with `Except.error`. -/
def update_bookmarks (state : SingerState) (stream : Stream)
    (latest_record : JDict) : Except String SingerState :=
  let state1 :=
    if state.isEmpty then
      merge_bookmarks state stream [("version", stream.stream_version)]
    else state
  if latest_record.isEmpty then .ok state1
  else if stream.replication_method = "FULL_TABLE" then
    let max_pk_values := get_bookmark state1 stream.tap_stream_id "max_pk_values"
    if (max_pk_values.map jtruthy).getD false then
      .ok (merge_bookmarks state1 stream
        [("last_pk_fetched",
          .jmap (latest_record.filter
            (fun kv => (stream.primary_keys.getD []).contains kv.1)))])
    else .ok state1
  else if stream.replication_method = "INCREMENTAL" ∨
      stream.replication_method = "LOG_BASED" then
    match stream.replication_key with
    | some rk =>
        match alistGet latest_record rk with
        | some v =>
            .ok (merge_bookmarks state1 stream
              [("replication_key", .jstr rk), ("replication_key_value", v)])
        | none => .error ("KeyError: " ++ rk)
    | none => .ok state1
  else .ok state1

/-- Processing a record sequence: `update_bookmarks` called once per record,
in order, threading the state. -/
def update_bookmarks_seq (state : SingerState) (stream : Stream)
    (records : List JDict) : Except String SingerState :=
  match records with
  | [] => .ok state
  | r :: rest => do
      let st' ← update_bookmarks state stream r
      update_bookmarks_seq st' stream rest

/-- The data of a `Tap` instance needed by the stream-resolution and sync
methods.  `loaded_streams` is the list `self.load_streams()` returns (in
the source it delegates to `discover_streams()` of the concrete tap, which
is outside this core); `streamsCache` is `self._streams`, set to `None`
(`none`) by the constructor; `load_count` is a ghost counter of how many
times the stream-loading-plus-catalog-application body of the `streams`
property has executed. -/
structure Tap where
  state : SingerState
  loaded_streams : List Stream
  streamsCache : Option (List (String × Stream))
  load_count : Nat
  deriving Repr

/-- The body of the `streams` property build loop (tap_base.py:52-56):
`self._streams[stream.name] = stream` for each loaded stream, in order
(the per-stream `apply_catalog` call mutates the stream's schema selection,
which no claim observes, so the stream value is stored as loaded). -/
def buildStreams (t : Tap) : List (String × Stream) :=
  t.loaded_streams.foldl (fun m s => alistSet m s.name s) []

/-- The `Tap.streams` property (tap_base.py:45-57): return the cached
mapping if present, otherwise build it once, cache it and return it.
Returns the mapping together with the tap after the property access. -/
def streamsGet (t : Tap) : (List (String × Stream)) × Tap :=
  match t.streamsCache with
  | some m => (m, t)
  | none =>
      let m := buildStreams t
      (m, { t with streamsCache := some m, load_count := t.load_count + 1 })

/-- `Tap.sync_all` (tap_base.py:170-173) iterates `self.streams.values()`
and calls `stream.sync()` on each; this is the sequence of stream names in
the order their syncs are started. -/
def sync_all_order (t : Tap) : List String :=
  ((streamsGet t).1).map (fun kv => kv.1)

/-- `Tap.sync_one` (tap_base.py:160-168): raise `ValueError` when
`stream_name` is not a key of `self.streams`, otherwise sync exactly that
stream.  The `ok` payload is the list of streams synced by the call (the
sorted key listing in the source's error message is elided). -/
def sync_one (t : Tap) (stream_name : String) : Except String (List String) :=
  if (alistGet (streamsGet t).1 stream_name).isNone then
    .error ("Could not find stream '" ++ stream_name ++ "' in streams list")
  else .ok [stream_name]

/-- `Tap.discover_streams` (tap_base.py:93-98): unconditionally raise
`NotImplementedError` telling the operator to pass `--catalog`. -/
def discover_streams (tap_name : String) : Except String (List Stream) :=
  .error ("Tap '" ++ tap_name ++ "' does not support discovery. " ++
    "Please set the '--catalog' command line argument and try again.")

/-- An iteration order is a topological sort of the parent-dependency
graph when every stream with declared parent stream types appears strictly
after each of its parents. -/
def isTopologicalOrder (order : List String) (streams : List Stream) : Bool :=
  streams.all (fun s =>
    s.parent_stream_types.all (fun p => order.indexOf p < order.indexOf s.name))

/-! ### The GitLab sample streams
(`singer_sdk/samples/sample_tap_gitlab/gitlab_rest_streams.py`) -/

/-- The configuration fields the sample GitLab streams read.
`start_date = none` models a configuration with no `start_date` key, so
`self.config.get("start_date")` returns `None`. -/
structure GitlabConfig where
  project_ids : List String
  start_date : Option String
  deriving Repr

/-- `self.config.get("start_date")` as a stored dict value: the configured
string, or Python `None` when absent. -/
def jvalOfOpt : Option String → JVal
  | some s => .jstr s
  | none => .jnull

/-- Python `s.split(sep)` for a single-character separator (the sample only
splits on `","` and `"="`): split on every occurrence, keeping empty
pieces, never returning an empty list. -/
def pySplit (s : String) (sep : Char) : List String :=
  (s.data.splitOn sep).map (fun cs => String.mk cs)

/-- Python list indexing `xs[i]`, raising `IndexError` past the end. -/
def pyIndex {α : Type} (xs : List α) (i : Nat) : Except String α :=
  match xs.get? i with
  | some x => .ok x
  | none => .error "IndexError"

/-- `GitlabStream.get_params` (gitlab_rest_streams.py:38-46):
`project_id = substream_id.split(",")[0].split("=")[1]`, then return
`{"project_id": project_id, "start_date": self.config.get("start_date")}`. -/
def gitlab_get_params (config : GitlabConfig) (substream_id : String) :
    Except String JDict := do
  let piece ← pyIndex (pySplit substream_id ',') 0
  let project_id ← pyIndex (pySplit piece '=') 1
  .ok [("project_id", .jstr project_id), ("start_date", jvalOfOpt config.start_date)]

/-- `ProjectBasedStream.get_substream_ids` (gitlab_rest_streams.py:52-54):
one `project_id=<id>` identifier per configured project id, in order. -/
def get_substream_ids (config : GitlabConfig) : List String :=
  config.project_ids.map (fun id => "project_id=" ++ id)

/-- The per-(stream, substream) bookmark state consulted by dependent
streams. -/
abbrev BookmarkState := List ((String × String) × JDict)

/-- Modelled from the spec: `helpers.read_stream_state` is not under `src/`
(only its caller is).  Per the spec's data model, BookmarkState maps
`(streamName, substreamId)` to a bookmark record; the lookup returns that
record, or an empty record when the key is absent (the caller then performs
its own `"epic_id" not in substream_state` fail-fast check). -/
def read_stream_state (st : BookmarkState) (key : String × String) : JDict :=
  (alistGet st key).getD []

/-- `EpicIssuesStream.get_params` (gitlab_rest_streams.py:139-148): read
the substream state for `("epic_issues", substream_id)`, raise `ValueError`
(the spec's DependencyStateError) when it has no `epic_id`, otherwise
return the base-class parameters updated with the substream state. -/
def epic_issues_get_params (config : GitlabConfig) (st : BookmarkState)
    (substream_id : String) : Except String JDict :=
  let substream_state := read_stream_state st ("epic_issues", substream_id)
  if (alistGet substream_state "epic_id").isNone then
    .error "Cannot sync epic issues without already known epic IDs."
  else do
    let result ← gitlab_get_params config substream_id
    .ok (dictUpdate result substream_state)

/-! ### Concrete instances used in counterexamples and witnesses -/

/-- A FULL_TABLE stream shaped like the sample `projects` stream. -/
def projectsStream : Stream :=
  ⟨"projects", "projects", some ["id"], none, "FULL_TABLE", [], .jint 5⟩

/-- An INCREMENTAL stream with replication key `updated_at`. -/
def commitsStream : Stream :=
  ⟨"commits", "commits", some ["id"], some "updated_at", "INCREMENTAL", [], .jint 3⟩

/-- The sample parent stream `epics` (no declared parents). -/
def epicsStream : Stream :=
  ⟨"epics", "epics", some ["id"], none, "FULL_TABLE", [], .jint 1⟩

/-- The sample dependent stream `epic_issues`, declaring `epics` as parent
(`parent_stream_types = [EpicsStream]`). -/
def epicIssuesStream : Stream :=
  ⟨"epic_issues", "epic_issues", some ["id"], none, "FULL_TABLE", ["epics"], .jint 1⟩

/-- A tap whose concrete `load_streams()` registers the dependent stream
before its parent. -/
def childFirstTap : Tap := ⟨[], [epicIssuesStream, epicsStream], none, 0⟩

/-- A tap whose concrete `load_streams()` registers the parent stream
before its dependent. -/
def parentFirstTap : Tap := ⟨[], [epicsStream, epicIssuesStream], none, 0⟩

/-- A state holding a bookmark for a stream named `other` and nothing else. -/
def otherStreamState : SingerState := [("other", [("version", .jint 9)])]

/-- A sample GitLab configuration with no `start_date`. -/
def nsProjConfig : GitlabConfig := ⟨["ns/proj"], none⟩

/-- A bookmark state in which the parent `epics` stream has recorded the
substream `epic=7` for `epic_issues`, with its `epic_id`. -/
def epicSubstreamState : BookmarkState :=
  [(("epic_issues", "epic=7"), [("epic_id", .jint 7)])]

/-! ### Association-list and bookmark lemmas -/

theorem alistGet_alistSet_self {κ α : Type} [DecidableEq κ]
    (m : List (κ × α)) (k : κ) (v : α) :
    alistGet (alistSet m k v) k = some v := by
  induction m with
  | nil => simp [alistSet, alistGet]
  | cons kv rest ih =>
      by_cases h : kv.1 = k
      · simp [alistSet, alistGet, h]
      · simp [alistSet, alistGet, h, ih]

theorem alistGet_alistSet_ne {κ α : Type} [DecidableEq κ]
    (m : List (κ × α)) (k k' : κ) (v : α) (h : k' ≠ k) :
    alistGet (alistSet m k v) k' = alistGet m k' := by
  induction m with
  | nil => simp [alistSet, alistGet, Ne.symm h]
  | cons kv rest ih =>
      by_cases hk : kv.1 = k
      · subst hk
        simp [alistSet, alistGet, Ne.symm h]
      · simp only [alistSet, if_neg hk]
        by_cases hk' : kv.1 = k'
        · simp [alistGet, hk']
        · simp [alistGet, hk', ih]

theorem alistSet_fresh_keys {κ α : Type} [DecidableEq κ]
    (m : List (κ × α)) (k : κ) (v : α) (h : alistGet m k = none) :
    (alistSet m k v).map Prod.fst = m.map Prod.fst ++ [k] := by
  induction m with
  | nil => simp [alistSet]
  | cons kv rest ih =>
      have hne : ¬ kv.1 = k := by
        intro hk
        simp [alistGet, hk] at h
      have hrest : alistGet rest k = none := by
        simpa [alistGet, hne] using h
      simp [alistSet, hne, ih hrest]

theorem get_bookmark_write_self (st : SingerState) (sid k : String) (v : JVal) :
    get_bookmark (write_bookmark st sid k v) sid k = some v := by
  unfold get_bookmark write_bookmark
  rw [alistGet_alistSet_self]
  simp [alistGet_alistSet_self]

theorem get_bookmark_write_ne_key (st : SingerState) (sid k : String) (v : JVal)
    (sid' k' : String) (h : k' ≠ k) :
    get_bookmark (write_bookmark st sid k v) sid' k' = get_bookmark st sid' k' := by
  unfold get_bookmark write_bookmark
  by_cases hs : sid' = sid
  · subst hs
    rw [alistGet_alistSet_self]
    cases halt : alistGet st sid' with
    | none => simp [halt, alistGet_alistSet_ne _ _ _ _ h, alistGet, Ne.symm h]
    | some bk => simp [halt, alistGet_alistSet_ne _ _ _ _ h]
  · rw [alistGet_alistSet_ne _ _ _ _ hs]

theorem get_bookmark_merge_ne (st : SingerState) (s : Stream)
    (kvs : List (String × JVal)) (sid k : String)
    (h : ∀ kv ∈ kvs, kv.1 ≠ k) :
    get_bookmark (merge_bookmarks st s kvs) sid k = get_bookmark st sid k := by
  induction kvs generalizing st with
  | nil => rfl
  | cons kv rest ih =>
      rw [show merge_bookmarks st s (kv :: rest)
          = merge_bookmarks (write_bookmark st s.tap_stream_id kv.1 kv.2) s rest
        from rfl]
      rw [ih _ (fun kv' h' => h kv' (List.mem_cons_of_mem _ h'))]
      exact get_bookmark_write_ne_key _ _ _ _ _ _ (h kv (List.mem_cons_self _ _)).symm

/-- Every successful `update_bookmarks` result is the pre-state — with the
version marker merged in first when the pre-state was empty — further
merged with some record-derived bookmark entries, none of which is keyed
`"version"`, and none at all when the record is empty. -/
theorem update_bookmarks_ok_shape (st : SingerState) (s : Stream) (r : JDict)
    (st' : SingerState) (hok : update_bookmarks st s r = .ok st') :
    ∃ kvs : List (String × JVal),
      (∀ kv ∈ kvs, kv.1 ≠ "version") ∧ (r.isEmpty = true → kvs = []) ∧
      st' = merge_bookmarks
        (if st.isEmpty then merge_bookmarks st s [("version", s.stream_version)] else st)
        s kvs := by
  simp only [update_bookmarks] at hok
  set state1 :=
    (if st.isEmpty then merge_bookmarks st s [("version", s.stream_version)] else st)
    with hstate1
  split at hok
  · injection hok with h
    exact ⟨[], by simp, fun _ => rfl, h.symm⟩
  · rename_i hre
    split at hok
    · split at hok
      · injection hok with h
        refine ⟨_, ?_, fun hemp => absurd hemp hre, h.symm⟩
        intro kv hkv
        rcases List.mem_singleton.mp hkv with rfl
        show "last_pk_fetched" ≠ "version"
        decide
      · injection hok with h
        exact ⟨[], by simp, fun _ => rfl, h.symm⟩
    · split at hok
      · split at hok
        · split at hok
          · injection hok with h
            refine ⟨_, ?_, fun hemp => absurd hemp hre, h.symm⟩
            intro kv hkv
            rcases List.mem_cons.mp hkv with rfl | hkv
            · show "replication_key" ≠ "version"
              decide
            · rcases List.mem_singleton.mp hkv with rfl
              show "replication_key_value" ≠ "version"
              decide
          · exact absurd hok (by simp)
        · injection hok with h
          exact ⟨[], by simp, fun _ => rfl, h.symm⟩
      · injection hok with h
        exact ⟨[], by simp, fun _ => rfl, h.symm⟩

/-- Keys accumulate in registration order when folding fresh, pairwise
distinct stream names into the stream mapping. -/
theorem buildStreams_fresh_keys (streams : List Stream) (m : List (String × Stream))
    (hfresh : ∀ s ∈ streams, alistGet m s.name = none)
    (hnodup : (streams.map Stream.name).Nodup) :
    (streams.foldl (fun m s => alistSet m s.name s) m).map Prod.fst
      = m.map Prod.fst ++ streams.map Stream.name := by
  induction streams generalizing m with
  | nil => simp
  | cons s rest ih =>
      simp only [List.foldl_cons, List.map_cons]
      have hm : alistGet m s.name = none := hfresh s (List.mem_cons_self _ _)
      have hnodup' : (rest.map Stream.name).Nodup := (List.nodup_cons.mp hnodup).2
      have hsname : s.name ∉ rest.map Stream.name := (List.nodup_cons.mp hnodup).1
      have hfresh' : ∀ s' ∈ rest, alistGet (alistSet m s.name s) s'.name = none := by
        intro s' hs'
        have hne : s'.name ≠ s.name := by
          intro he
          exact hsname (he ▸ List.mem_map_of_mem Stream.name hs')
        rw [alistGet_alistSet_ne _ _ _ _ hne]
        exact hfresh s' (List.mem_cons_of_mem _ hs')
      rw [ih _ hfresh' hnodup', alistSet_fresh_keys m s.name s hm, List.append_assoc]
      rfl

/-! ### Claim theorems -/

/-- C1: claimed — for a FULL_TABLE stream, after `update_bookmarks` on each
record in order, the stored `last_pk_fetched` equals the primary-key values
of the last record.  Evaluation of the code at the failing input: two
records with primary key `id` are processed for the FULL_TABLE `projects`
stream, and no `last_pk_fetched` bookmark exists afterwards (the source
gates the write on a `max_pk_values` bookmark that no code path ever sets),
where the claim requires `last_pk_fetched = {"id": 2}`. -/
theorem c1_full_table_last_pk_never_written :
    update_bookmarks_seq [] projectsStream [[("id", .jint 1)], [("id", .jint 2)]]
      = .ok [("projects", [("version", .jint 5)])] ∧
    get_bookmark [("projects", [("version", .jint 5)])] "projects" "last_pk_fetched"
      = none :=
  ⟨rfl, rfl⟩

/-- C2, counterexample: for the tap that registers `epic_issues` (whose
`parent_stream_types` is `[epics]`) before `epics`, `sync_all` starts the
dependent stream first — the iteration order is not a topological sort of
the parent-dependency graph, refuting the claim as stated. -/
theorem c2_counterexample :
    sync_all_order childFirstTap = ["epic_issues", "epics"] ∧
    isTopologicalOrder (sync_all_order childFirstTap) childFirstTap.loaded_streams
      = false :=
  ⟨rfl, rfl⟩

/-- C2, amended: `sync_all` iterates the resolved streams exactly in
registration order (the insertion order of `load_streams()`), consulting no
parent-dependency information; a parent-before-child order holds only if
the streams were registered that way. -/
theorem c2_sync_all_registration_order (t : Tap)
    (hc : t.streamsCache = none)
    (hnodup : (t.loaded_streams.map Stream.name).Nodup) :
    sync_all_order t = t.loaded_streams.map Stream.name := by
  simp only [sync_all_order, streamsGet, hc]
  have h := buildStreams_fresh_keys t.loaded_streams [] (fun s _ => rfl) hnodup
  simpa [buildStreams] using h

/-- Witness for the amended C2 at a concrete parent-first tap. -/
theorem c2_sync_all_registration_order_witness :
    sync_all_order parentFirstTap = ["epics", "epic_issues"] :=
  c2_sync_all_registration_order parentFirstTap rfl (by decide)

/-- C3, counterexample: the stream `projects` has no prior bookmark, but a
bookmark for another stream exists, so `update_bookmarks` (whose guard is
`if not self._state`, i.e. whole-state emptiness) writes no `version`
marker for `projects` on its first bookmark write — refuting the claim's
"even when bookmarks for other streams already exist". -/
theorem c3_counterexample :
    update_bookmarks otherStreamState projectsStream [("id", .jint 1)]
      = .ok otherStreamState ∧
    get_bookmark otherStreamState "projects" "version" = none :=
  ⟨rfl, rfl⟩

/-- C3, amended: `update_bookmarks` writes the initial `version` marker
into the stream's bookmark exactly when the entire state is empty (the
first bookmark write of the run); whenever any bookmark already exists —
even for other streams only — no `version` marker is written for any
stream. -/
theorem c3_version_marker (s : Stream) (r : JDict) (st st' : SingerState)
    (hok : update_bookmarks st s r = .ok st') :
    (st = [] → get_bookmark st' s.tap_stream_id "version" = some s.stream_version) ∧
    (st ≠ [] → ∀ sid, get_bookmark st' sid "version" = get_bookmark st sid "version") := by
  obtain ⟨kvs, hkvs, -, rfl⟩ := update_bookmarks_ok_shape st s r st' hok
  constructor
  · rintro rfl
    rw [get_bookmark_merge_ne _ _ _ _ _ hkvs]
    show get_bookmark (write_bookmark [] s.tap_stream_id "version" s.stream_version)
      s.tap_stream_id "version" = some s.stream_version
    exact get_bookmark_write_self _ _ _ _
  · intro hne sid
    have hfalse : st.isEmpty = false := by
      cases st with
      | nil => exact absurd rfl hne
      | cons a l => rfl
    rw [get_bookmark_merge_ne _ _ _ _ _ hkvs, if_neg (by simp [hfalse])]

/-- Witness for the amended C3: on an empty state, the first record
processed for `projects` stores its version marker. -/
theorem c3_version_marker_witness :
    get_bookmark [("projects", [("version", .jint 5)])] "projects" "version"
      = some (.jint 5) :=
  (c3_version_marker projectsStream [("id", .jint 1)] []
    [("projects", [("version", .jint 5)])] rfl).1 rfl

/-- For an INCREMENTAL/LOG_BASED stream whose replication key is present in
the record, `update_bookmarks` merges the record's replication-key value
over the state unconditionally. -/
theorem update_bookmarks_incremental (st : SingerState) (s : Stream) (r : JDict)
    (rk : String) (v : JVal)
    (hm : s.replication_method = "INCREMENTAL" ∨ s.replication_method = "LOG_BASED")
    (hk : s.replication_key = some rk) (hv : alistGet r rk = some v) :
    update_bookmarks st s r =
      .ok (merge_bookmarks
        (if st.isEmpty then merge_bookmarks st s [("version", s.stream_version)] else st)
        s [("replication_key", .jstr rk), ("replication_key_value", v)]) := by
  have hr : r.isEmpty = false := by
    cases r with
    | nil => simp [alistGet] at hv
    | cons a l => rfl
  have hft : ¬ s.replication_method = "FULL_TABLE" := by
    rcases hm with h | h <;> rw [h] <;> decide
  simp [update_bookmarks, hr, hft, hk, hv, hm]

theorem get_bookmark_merge_rkv (st1 : SingerState) (s : Stream) (rk : String)
    (v : JVal) :
    get_bookmark (merge_bookmarks st1 s
        [("replication_key", .jstr rk), ("replication_key_value", v)])
      s.tap_stream_id "replication_key_value" = some v := by
  rw [show merge_bookmarks st1 s
        [("replication_key", .jstr rk), ("replication_key_value", v)]
      = write_bookmark (write_bookmark st1 s.tap_stream_id "replication_key" (.jstr rk))
          s.tap_stream_id "replication_key_value" v from rfl]
  exact get_bookmark_write_self _ _ _ _

theorem update_bookmarks_seq_cons (st : SingerState) (s : Stream) (r : JDict)
    (rest : List JDict) (st1 : SingerState)
    (h : update_bookmarks st s r = .ok st1) :
    update_bookmarks_seq st s (r :: rest) = update_bookmarks_seq st1 s rest := by
  show update_bookmarks st s r >>= (fun st' => update_bookmarks_seq st' s rest)
      = update_bookmarks_seq st1 s rest
  rw [h]
  rfl

/-- C4: for INCREMENTAL/LOG_BASED streams with a replication key,
`update_bookmarks` overwrites the stored `replication_key_value` with the
record's replication-key field value unconditionally — from any prior
state — and hence, over any record sequence in which every record carries
the key, the stored value after processing equals the last record's value
(proved without any monotonicity assumption, so in particular for
non-decreasing sequences). -/
theorem c4_incremental_overwrite (s : Stream) (rk : String)
    (hm : s.replication_method = "INCREMENTAL" ∨ s.replication_method = "LOG_BASED")
    (hk : s.replication_key = some rk) :
    (∀ st r v, alistGet r rk = some v →
      ∃ st', update_bookmarks st s r = .ok st' ∧
        get_bookmark st' s.tap_stream_id "replication_key_value" = some v) ∧
    (∀ st records last, records.getLast? = some last →
      (∀ r ∈ records, (alistGet r rk).isSome = true) →
      ∃ st', update_bookmarks_seq st s records = .ok st' ∧
        get_bookmark st' s.tap_stream_id "replication_key_value" = alistGet last rk) := by
  constructor
  · intro st r v hv
    exact ⟨_, update_bookmarks_incremental st s r rk v hm hk hv,
      get_bookmark_merge_rkv _ _ _ _⟩
  · intro st records
    induction records generalizing st with
    | nil => intro last hlast; simp at hlast
    | cons r rest ih =>
        intro last hlast hall
        have hr : (alistGet r rk).isSome = true := hall r (List.mem_cons_self _ _)
        obtain ⟨v, hv⟩ := Option.isSome_iff_exists.mp hr
        have hstep := update_bookmarks_incremental st s r rk v hm hk hv
        cases rest with
        | nil =>
            have hlr : r = last := by
              rw [List.getLast?_singleton] at hlast
              injection hlast
            subst hlr
            refine ⟨merge_bookmarks
              (if st.isEmpty then merge_bookmarks st s [("version", s.stream_version)]
                else st)
              s [("replication_key", .jstr rk), ("replication_key_value", v)],
              ?_, ?_⟩
            · rw [update_bookmarks_seq_cons _ _ _ _ _ hstep]
              rfl
            · rw [hv]
              exact get_bookmark_merge_rkv _ _ _ _
        | cons r2 rest2 =>
            have hlast' : (r2 :: rest2).getLast? = some last := by
              rwa [List.getLast?_cons_cons] at hlast
            have hall' : ∀ r' ∈ r2 :: rest2, (alistGet r' rk).isSome = true :=
              fun r' h' => hall r' (List.mem_cons_of_mem _ h')
            obtain ⟨st', hseq, hget⟩ := ih
              (merge_bookmarks
                (if st.isEmpty then merge_bookmarks st s [("version", s.stream_version)]
                  else st)
                s [("replication_key", .jstr rk), ("replication_key_value", v)])
              last hlast' hall'
            refine ⟨st', ?_, hget⟩
            rw [update_bookmarks_seq_cons _ _ _ _ _ hstep]
            exact hseq

/-- Witness for C4: two `commits` records in ascending `updated_at` order,
starting from the empty state, leave the last record's value stored. -/
theorem c4_incremental_overwrite_witness :
    ∃ st', update_bookmarks_seq [] commitsStream
        [[("updated_at", .jint 1)], [("updated_at", .jint 2)]] = .ok st' ∧
      get_bookmark st' "commits" "replication_key_value"
        = alistGet [("updated_at", .jint 2)] "updated_at" :=
  (c4_incremental_overwrite commitsStream "updated_at" (Or.inl rfl) rfl).2
    [] [[("updated_at", .jint 1)], [("updated_at", .jint 2)]]
    [("updated_at", .jint 2)] rfl
    (by intro r hr; simp only [List.mem_cons, List.not_mem_nil, or_false] at hr
        rcases hr with rfl | rfl <;> rfl)

/-- C5: for the dependent `epic_issues` stream, `get_params` fails with the
dependency error exactly when the substream state in BookmarkState has no
`epic_id` (it never synthesizes one), and on success returns the base
parameters updated with the substream state. -/
theorem c5_epic_issues_get_params (config : GitlabConfig) (st : BookmarkState)
    (substream_id : String) :
    (alistGet (read_stream_state st ("epic_issues", substream_id)) "epic_id" = none →
      epic_issues_get_params config st substream_id =
        .error "Cannot sync epic issues without already known epic IDs.") ∧
    (∀ v, alistGet (read_stream_state st ("epic_issues", substream_id)) "epic_id"
        = some v →
      ∀ base, gitlab_get_params config substream_id = .ok base →
        epic_issues_get_params config st substream_id =
          .ok (dictUpdate base (read_stream_state st ("epic_issues", substream_id)))) := by
  constructor
  · intro h
    simp [epic_issues_get_params, h]
  · intro v hv base hbase
    simp [epic_issues_get_params, hv, hbase]
    rfl

/-- Witness for C5: with no parent-written state, syncing `epic=7` fails
fast; with the parent-written `epic_id`, it returns the merged parameters. -/
theorem c5_epic_issues_get_params_witness :
    epic_issues_get_params nsProjConfig [] "epic=7"
      = .error "Cannot sync epic issues without already known epic IDs." ∧
    epic_issues_get_params nsProjConfig epicSubstreamState "epic=7"
      = .ok (dictUpdate [("project_id", .jstr "7"), ("start_date", .jnull)]
          (read_stream_state epicSubstreamState ("epic_issues", "epic=7"))) :=
  ⟨(c5_epic_issues_get_params nsProjConfig [] "epic=7").1 rfl,
   (c5_epic_issues_get_params nsProjConfig epicSubstreamState "epic=7").2
     (.jint 7) rfl [("project_id", .jstr "7"), ("start_date", .jnull)] rfl⟩

/-- C6: `sync_one` fails with the stream-not-found error — syncing no
stream — for every name absent from the resolved stream mapping, and syncs
exactly the named stream for every name that is present. -/
theorem c6_sync_one (t : Tap) (stream_name : String) :
    (alistGet (streamsGet t).1 stream_name = none →
      sync_one t stream_name =
        .error ("Could not find stream '" ++ stream_name ++ "' in streams list")) ∧
    ((alistGet (streamsGet t).1 stream_name).isSome = true →
      sync_one t stream_name = .ok [stream_name]) := by
  constructor
  · intro h
    simp [sync_one, h]
  · intro h
    obtain ⟨s, hs⟩ := Option.isSome_iff_exists.mp h
    simp [sync_one, hs]

/-- Witness for C6 at a concrete tap: an unknown name errors, a resolved
name syncs exactly that stream. -/
theorem c6_sync_one_witness :
    sync_one childFirstTap "nope"
      = .error "Could not find stream 'nope' in streams list" ∧
    sync_one childFirstTap "epics" = .ok ["epics"] :=
  ⟨(c6_sync_one childFirstTap "nope").1 rfl,
   (c6_sync_one childFirstTap "epics").2 rfl⟩

/-- C7, counterexample: with `{"project_ids": ["ns/proj"]}` and no
configured `start_date`, `get_params` returns a mapping in which the
`start_date` key is present with the null value — not absent, as the
claim states for the unconfigured case. -/
theorem c7_counterexample :
    gitlab_get_params nsProjConfig "project_id=ns/proj"
      = .ok [("project_id", .jstr "ns/proj"), ("start_date", .jnull)] ∧
    (alistGet [("project_id", JVal.jstr "ns/proj"), ("start_date", JVal.jnull)]
      "start_date").isSome = true :=
  ⟨rfl, rfl⟩

/-- C7, amended: with `{"project_ids": ["ns/proj"]}` the substream
enumerator returns exactly `["project_id=ns/proj"]`, and
`get_params "project_id=ns/proj"` maps `project_id` to `"ns/proj"` and
`start_date` to the configured start date, or to the null value when no
start date is configured (the key is always present). -/
theorem c7_substream_enum_and_params (sd : Option String) :
    get_substream_ids ⟨["ns/proj"], sd⟩ = ["project_id=ns/proj"] ∧
    gitlab_get_params ⟨["ns/proj"], sd⟩ "project_id=ns/proj"
      = .ok [("project_id", .jstr "ns/proj"), ("start_date", jvalOfOpt sd)] :=
  ⟨rfl, rfl⟩

/-- C8: the default `discover_streams` always fails with the
discovery-not-supported error instructing the operator to supply an
explicit `--catalog`, and never returns a stream list, whatever the tap's
name. -/
theorem c8_discover_streams (tap_name : String) :
    discover_streams tap_name =
      .error ("Tap '" ++ tap_name ++ "' does not support discovery. " ++
        "Please set the '--catalog' command line argument and try again.") ∧
    ∀ streams, discover_streams tap_name ≠ .ok streams := by
  refine ⟨rfl, ?_⟩
  intro streams h
  simp [discover_streams] at h

/-- C9: the resolved stream mapping is built lazily exactly once per tap
instance and cached: a second access to `streams` returns the same mapping
and the same tap (so stream loading and catalog application do not run
again), the build counter increases by at most one per access, and a fresh
instance (empty cache) builds the mapping on first access, incrementing the
counter exactly once. -/
theorem c9_streams_cached (t : Tap) :
    (streamsGet (streamsGet t).2).1 = (streamsGet t).1 ∧
    (streamsGet (streamsGet t).2).2 = (streamsGet t).2 ∧
    (streamsGet t).2.load_count ≤ t.load_count + 1 ∧
    (t.streamsCache = none →
      (streamsGet t).1 = buildStreams t ∧
      (streamsGet t).2.load_count = t.load_count + 1) := by
  cases hc : t.streamsCache with
  | some m =>
      refine ⟨?_, ?_, ?_, ?_⟩
      · simp [streamsGet, hc]
      · simp [streamsGet, hc]
      · simp [streamsGet, hc]
      · intro h
        exact absurd h (by simp)
  | none =>
      refine ⟨?_, ?_, ?_, fun _ => ⟨?_, ?_⟩⟩ <;> simp [streamsGet, hc]

/-- Witness for C9: on a fresh tap, the first access builds and the second
access returns the identical cached mapping without rebuilding. -/
theorem c9_streams_cached_witness :
    (streamsGet (streamsGet parentFirstTap).2).1 = (streamsGet parentFirstTap).1 ∧
    (streamsGet parentFirstTap).2.load_count = parentFirstTap.load_count + 1 :=
  ⟨(c9_streams_cached parentFirstTap).1,
   ((c9_streams_cached parentFirstTap).2.2.2 rfl).2⟩

/-- C10: `update_bookmarks` with an empty (or absent, hence falsy) record
leaves every existing bookmark entry unchanged: when the state is
non-empty the state is returned untouched; when it is empty the only write
is the initial `version` marker for the stream, and no bookmark entry
under any other key — in particular neither `last_pk_fetched` nor
`replication_key_value` — is added or modified. -/
theorem c10_empty_record_frame (s : Stream) (st : SingerState) :
    ∃ st', update_bookmarks st s [] = .ok st' ∧
      (st ≠ [] → st' = st) ∧
      (st = [] → st' = write_bookmark [] s.tap_stream_id "version" s.stream_version) ∧
      (∀ sid k, k ≠ "version" → get_bookmark st' sid k = get_bookmark st sid k) := by
  cases st with
  | nil =>
      refine ⟨write_bookmark [] s.tap_stream_id "version" s.stream_version,
        rfl, fun h => absurd rfl h, fun _ => rfl, ?_⟩
      intro sid k hk
      exact get_bookmark_write_ne_key _ _ _ _ _ _ hk
  | cons e rest =>
      exact ⟨e :: rest, rfl, fun _ => rfl,
        fun h => absurd h (by simp), fun _ _ _ => rfl⟩

/-- Witness for C10: an empty record on a non-empty state returns the
state unchanged, and touches no `last_pk_fetched` entry. -/
theorem c10_empty_record_frame_witness :
    ∃ st', update_bookmarks otherStreamState projectsStream [] = .ok st' ∧
      st' = otherStreamState ∧
      get_bookmark st' "projects" "last_pk_fetched"
        = get_bookmark otherStreamState "projects" "last_pk_fetched" :=
  match c10_empty_record_frame projectsStream otherStreamState with
  | ⟨st', hok, hunch, _, hframe⟩ =>
      ⟨st', hok, hunch (by simp [otherStreamState]),
        hframe "projects" "last_pk_fetched" (by decide)⟩

end SingerSDK
